import Mathlib

/-!
Verification development for the FitAI plan server (`fit-server/src/main.py`).

The file shallowly embeds the orchestration and resilient-extraction pipeline:
the JSON value model and a parser mirroring Python's `json.loads` (strict
mode), the regex-based fence cascade of `extract_json_from_response`, the
summary post-processing of `generate_plan`, the tenacity retry wrapper of
`call_openai_with_tools` / `invoke_agent_with_retry`, the three-stage
`generate_plan` orchestration, and the `correct_plan` correction flow over
the `fitness_plans` store.

Machine strings are `List Char` at the scanning level and `String` in data
records; fallible Python code is embedded as `Option`/`Except`.
-/

set_option maxRecDepth 10000
set_option linter.unusedVariables false

namespace FitAi

/-- JSON values as produced by Python's `json` module. Numbers keep their
source lexeme (Python would materialize `int`/`float`; no claim here depends
on numeric normalization). Objects are association lists in Python dict
insertion order, with duplicate keys resolved last-value-wins in place. -/
inductive Json where
  | null : Json
  | bool (b : Bool) : Json
  | num (lexeme : String) : Json
  | str (s : String) : Json
  | arr (elems : List Json) : Json
  | obj (fields : List (String × Json)) : Json

/-- Whether a JSON value is a Python `dict`. -/
def Json.isObj : Json → Bool
  | Json.obj _ => true
  | _ => false

/-- Python `json` whitespace (`[ \t\n\r]`, the WHITESPACE regex of the
`json.decoder` module). -/
def isJsonWs (c : Char) : Bool :=
  c = ' ' || c = '\t' || c = '\n' || c = '\r'

/-- ASCII characters matched by `\s` in Python `re` patterns
(`[ \t\n\r\f\v]`; non-ASCII Unicode whitespace is outside the scope of the
concrete inputs used here). -/
def isReSpace (c : Char) : Bool :=
  isJsonWs c || c = Char.ofNat 11 || c = Char.ofNat 12

/-- Drop leading JSON whitespace. -/
def skipWs (cs : List Char) : List Char := cs.dropWhile isJsonWs

/-- `startsWithChars p cs` holds when `p` is an initial segment of `cs`. -/
def startsWithChars : List Char → List Char → Bool
  | [], _ => true
  | _ :: _, [] => false
  | p :: ps, c :: cs => p == c && startsWithChars ps cs

/-- Hex digit test for `\uXXXX` escapes. -/
def isHexChar (c : Char) : Bool :=
  c.isDigit || ('a' ≤ c && c ≤ 'f') || ('A' ≤ c && c ≤ 'F')

/-- Numeric value of a hex digit. -/
def hexVal (c : Char) : Nat :=
  if c.isDigit then c.toNat - 48
  else if 'a' ≤ c && c ≤ 'f' then c.toNat - 87
  else c.toNat - 55

/-- Whether `n` is a high surrogate code (`0xD800`–`0xDBFF`). -/
def isHighSurrogate (n : Nat) : Bool := 0xD800 ≤ n && n ≤ 0xDBFF

/-- Whether `n` is a low surrogate code (`0xDC00`–`0xDFFF`). -/
def isLowSurrogate (n : Nat) : Bool := 0xDC00 ≤ n && n ≤ 0xDFFF

/-- Parse the body of a JSON string literal after the opening quote, per the
strict scanner of Python's `json`: raw control characters (< 0x20) are
rejected, the standard escapes and `\uXXXX` (with surrogate pairing) are
honored. A lone surrogate (accepted by Python) has no `Char` representation
and degrades to `Char.ofNat`'s default; no claim exercises that corner.
The first argument is fuel; every step consumes at least one input
character, so `cs.length + 1` fuel never runs out.
Returns the decoded content and the remainder after the closing quote. -/
def parseStrBodyF : Nat → List Char → Option (List Char × List Char)
  | 0, _ => none
  | _, [] => none
  | fuel + 1, c :: rest =>
    if c = '"' then some ([], rest)
    else if c = '\\' then
      match rest with
      | [] => none
      | e :: rest2 =>
        if e = 'u' then
          match rest2 with
          | a :: b :: cch :: d :: rest3 =>
            if isHexChar a && isHexChar b && isHexChar cch && isHexChar d then
              let n := ((hexVal a * 16 + hexVal b) * 16 + hexVal cch) * 16 + hexVal d
              if isHighSurrogate n then
                match rest3 with
                | '\\' :: 'u' :: a2 :: b2 :: c2 :: d2 :: rest4 =>
                  if isHexChar a2 && isHexChar b2 && isHexChar c2 && isHexChar d2 then
                    let n2 := ((hexVal a2 * 16 + hexVal b2) * 16 + hexVal c2) * 16 + hexVal d2
                    if isLowSurrogate n2 then
                      match parseStrBodyF fuel rest4 with
                      | some (s, r) =>
                        some (Char.ofNat (0x10000 + (n - 0xD800) * 0x400 + (n2 - 0xDC00)) :: s, r)
                      | none => none
                    else
                      match parseStrBodyF fuel rest4 with
                      | some (s, r) => some (Char.ofNat n :: Char.ofNat n2 :: s, r)
                      | none => none
                  else
                    match parseStrBodyF fuel rest3 with
                    | some (s, r) => some (Char.ofNat n :: s, r)
                    | none => none
                | _ =>
                  match parseStrBodyF fuel rest3 with
                  | some (s, r) => some (Char.ofNat n :: s, r)
                  | none => none
              else
                match parseStrBodyF fuel rest3 with
                | some (s, r) => some (Char.ofNat n :: s, r)
                | none => none
            else none
          | _ => none
        else
          let dec : Option Char :=
            if e = '"' then some '"'
            else if e = '\\' then some '\\'
            else if e = '/' then some '/'
            else if e = 'b' then some (Char.ofNat 8)
            else if e = 'f' then some (Char.ofNat 12)
            else if e = 'n' then some '\n'
            else if e = 'r' then some '\r'
            else if e = 't' then some '\t'
            else none
          match dec with
          | some ch =>
            match parseStrBodyF fuel rest2 with
            | some (s, r) => some (ch :: s, r)
            | none => none
          | none => none
    else if c.toNat < 32 then none
    else
      match parseStrBodyF fuel rest with
      | some (s, r) => some (c :: s, r)
      | none => none

/-- String-literal body parse with sufficient fuel. -/
def parseStrBody (cs : List Char) : Option (List Char × List Char) :=
  parseStrBodyF (cs.length + 1) cs

/-- Span of decimal digits. -/
def spanDigits (cs : List Char) : List Char × List Char :=
  (cs.takeWhile Char.isDigit, cs.dropWhile Char.isDigit)

/-- Match the JSON number regex
`(-?(?:0|[1-9]\d*))(\.\d+)?([eE][-+]?\d+)?` (maximal munch), returning the
matched lexeme and the remainder. -/
def parseNumLex (cs : List Char) : Option (List Char × List Char) :=
  let (sign, cs1) :=
    match cs with
    | '-' :: rest => (['-'], rest)
    | _ => (([] : List Char), cs)
  match cs1 with
  | [] => none
  | d :: rest =>
    if !d.isDigit then none
    else
      let (ipart, cs2) :=
        if d = '0' then ([d], rest)
        else
          let (more, r) := spanDigits rest
          (d :: more, r)
      let (fpart, cs3) :=
        match cs2 with
        | '.' :: r =>
          let (ds, r2) := spanDigits r
          if ds.isEmpty then (([] : List Char), cs2) else ('.' :: ds, r2)
        | _ => (([] : List Char), cs2)
      let (epart, cs4) :=
        match cs3 with
        | e :: r =>
          if e = 'e' || e = 'E' then
            match r with
            | s :: r2 =>
              if s = '+' || s = '-' then
                let (ds, r3) := spanDigits r2
                if ds.isEmpty then (([] : List Char), cs3) else (e :: s :: ds, r3)
              else
                let (ds, r3) := spanDigits r
                if ds.isEmpty then (([] : List Char), cs3) else (e :: ds, r3)
            | [] => (([] : List Char), cs3)
          else (([] : List Char), cs3)
        | [] => (([] : List Char), cs3)
      some (sign ++ ipart ++ fpart ++ epart, cs4)

/-- Insert a key into a Python dict modelled as an association list:
a duplicate key keeps its original position and takes the new value. -/
def insertKey (fs : List (String × Json)) (k : String) (v : Json) :
    List (String × Json) :=
  match fs with
  | [] => [(k, v)]
  | (k', v') :: rest =>
    if k' = k then (k', v) :: rest else (k', v') :: insertKey rest k v

mutual

/-- Fuel-indexed JSON value parser mirroring `json.loads`' scanner:
strings, objects, arrays, `null`/`true`/`false`, the non-finite constants
`NaN`/`Infinity`/`-Infinity`, and numbers. -/
def parseVal : Nat → List Char → Option (Json × List Char)
  | 0, _ => none
  | fuel + 1, cs =>
    match cs with
    | [] => none
    | c :: rest =>
      if c = '"' then
        match parseStrBody rest with
        | some (s, r) => some (Json.str s.asString, r)
        | none => none
      else if c = '{' then
        let cs1 := skipWs rest
        match cs1 with
        | '}' :: r => some (Json.obj [], r)
        | _ => parseFields fuel cs1 []
      else if c = '[' then
        let cs1 := skipWs rest
        match cs1 with
        | ']' :: r => some (Json.arr [], r)
        | _ => parseElems fuel cs1 []
      else if startsWithChars ("null".toList) cs then some (Json.null, cs.drop 4)
      else if startsWithChars ("true".toList) cs then some (Json.bool true, cs.drop 4)
      else if startsWithChars ("false".toList) cs then some (Json.bool false, cs.drop 5)
      else if startsWithChars ("NaN".toList) cs then some (Json.num "NaN", cs.drop 3)
      else if startsWithChars ("Infinity".toList) cs then some (Json.num "Infinity", cs.drop 8)
      else if startsWithChars ("-Infinity".toList) cs then some (Json.num "-Infinity", cs.drop 9)
      else
        match parseNumLex cs with
        | some (lex, r) => some (Json.num lex.asString, r)
        | none => none

/-- Parse the fields of a non-empty JSON object (cursor just inside the
brace, whitespace already skipped). -/
def parseFields : Nat → List Char → List (String × Json) →
    Option (Json × List Char)
  | 0, _, _ => none
  | fuel + 1, cs, acc =>
    match cs with
    | '"' :: r =>
      match parseStrBody r with
      | some (k, r1) =>
        match skipWs r1 with
        | ':' :: r3 =>
          match parseVal fuel (skipWs r3) with
          | some (v, r4) =>
            let acc' := insertKey acc k.asString v
            match skipWs r4 with
            | ',' :: r6 => parseFields fuel (skipWs r6) acc'
            | '}' :: r6 => some (Json.obj acc', r6)
            | _ => none
          | none => none
        | _ => none
      | none => none
    | _ => none

/-- Parse the elements of a non-empty JSON array (cursor just inside the
bracket, whitespace already skipped). -/
def parseElems : Nat → List Char → List Json → Option (Json × List Char)
  | 0, _, _ => none
  | fuel + 1, cs, acc =>
    match parseVal fuel cs with
    | some (v, r) =>
      match skipWs r with
      | ',' :: r2 => parseElems fuel (skipWs r2) (acc ++ [v])
      | ']' :: r2 => some (Json.arr (acc ++ [v]), r2)
      | _ => none
    | none => none

end

/-- `json.loads`: skip leading whitespace, parse one value, skip trailing
whitespace, require the input to be exhausted. The fuel bound `2·n + 8`
strictly dominates the recursion depth (at most two fuel units are spent per
consumed character). -/
def jparse (cs : List Char) : Option Json :=
  match parseVal (2 * cs.length + 8) (skipWs cs) with
  | some (v, rest) => if skipWs rest = [] then some v else none
  | none => none

/-! ## The fence cascade of `extract_json_from_response` (main.py 446-505)

The Python code searches the raw text with three regexes, in order:
`(three backticks)json\s*([\s\S]*?)\s*(three backticks)` via `re.findall`,
the same pattern without the `json` tag, and finally the greedy
`\x7b[\s\S]*\x7d` via `re.search`. The scanners below reproduce the
backtracking outcome of those patterns: a block's content runs from the
opener (whitespace after the tag stripped, because the first `\s*` is
greedy) to the first subsequent fence, with the whitespace run immediately
before the closing fence stripped (lazy group followed by greedy `\s*`);
`re.findall` continues after the closing fence (non-overlapping matches). -/

/-- Three backticks, the fence delimiter. -/
def fenceChars : List Char := "\x60\x60\x60".toList

/-- The tagged opener, three backticks followed by `json`. -/
def jsonTagChars : List Char := "\x60\x60\x60json".toList

/-- Strip the trailing run of regex whitespace. -/
def dropReSpaceEnd (cs : List Char) : List Char :=
  (cs.reverse.dropWhile isReSpace).reverse

/-- Split at the first occurrence of a closing fence: the content before it
and the remainder after it, or `none` when no fence occurs. -/
def splitAtFence : List Char → Option (List Char × List Char)
  | [] => none
  | c :: rest =>
    if startsWithChars fenceChars (c :: rest) then some ([], (c :: rest).drop 3)
    else
      match splitAtFence rest with
      | some (pre, post) => some (c :: pre, post)
      | none => none

/-- Scan for tagged fenced blocks (fuel-indexed; `cs.length + 1` fuel never
runs out since every step strictly shrinks the input). When an opener has no
closing fence, the scan correctly ends: any later opener would itself embed
a fence that the failed search would have found. -/
def findTaggedGo : Nat → List Char → List (List Char)
  | 0, _ => []
  | fuel + 1, cs =>
    match cs with
    | [] => []
    | _ :: rest =>
      if startsWithChars jsonTagChars cs then
        match splitAtFence ((cs.drop 7).dropWhile isReSpace) with
        | some (pre, post) => dropReSpaceEnd pre :: findTaggedGo fuel post
        | none => []
      else findTaggedGo fuel rest

/-- Contents matched by `re.findall` for the tagged-block pattern. -/
def findTaggedBlocks (cs : List Char) : List (List Char) :=
  findTaggedGo (cs.length + 1) cs

/-- Scan for generic fenced blocks (same shape as `findTaggedGo`). -/
def findGenericGo : Nat → List Char → List (List Char)
  | 0, _ => []
  | fuel + 1, cs =>
    match cs with
    | [] => []
    | _ :: rest =>
      if startsWithChars fenceChars cs then
        match splitAtFence ((cs.drop 3).dropWhile isReSpace) with
        | some (pre, post) => dropReSpaceEnd pre :: findGenericGo fuel post
        | none => []
      else findGenericGo fuel rest

/-- Contents matched by `re.findall` for the generic-block pattern. -/
def findGenericBlocks (cs : List Char) : List (List Char) :=
  findGenericGo (cs.length + 1) cs

/-- The greedy brace-span regex searched with `re.search`: from the first
opening brace to the last closing brace, both included, provided the close
follows the open. -/
def braceSpan (cs : List Char) : Option (List Char) :=
  let tl := cs.dropWhile (fun c => c ≠ '{')
  match tl with
  | [] => none
  | _ :: _ =>
    match tl.reverse.dropWhile (fun c => c ≠ '}') with
    | [] => none
    | r => some r.reverse

/-- A Python exception escaping `extract_json_from_response` or the summary
post-processing of `generate_plan`. -/
inductive PyErr where
  | attrError
  | typeError
  deriving DecidableEq, Repr

/-- The guaranteed fallback document of the cascade's last step. -/
def fallbackDoc (cs : List Char) : Json :=
  Json.obj [("raw_response", Json.str cs.asString)]

/-- Step 2 of the cascade: try each tagged block in order until one parses.
On the first block that parses, the code executes
`print(f"... keys: \x7blist(result.keys())\x7d")` before returning: when that
parse is not a dict, `result.keys()` raises `AttributeError`, which is not
caught by the surrounding `except json.JSONDecodeError`. -/
def scanTagged : List (List Char) → Option (Except PyErr Json)
  | [] => none
  | b :: bs =>
    match jparse b with
    | some (Json.obj fs) => some (Except.ok (Json.obj fs))
    | some _ => some (Except.error PyErr.attrError)
    | none => scanTagged bs

/-- First block of a list whose content parses (step 3 of the cascade: the
generic-block branch prints no `.keys()` and returns any parsed value). -/
def firstParse : List (List Char) → Option Json
  | [] => none
  | b :: bs =>
    match jparse b with
    | some v => some v
    | none => firstParse bs

/-- `extract_json_from_response(response_text, debug_label)` for string
input (the non-string flattening branch is the identity on strings). The
debug label is only ever printed by the Python code. -/
def extract_json_from_response (cs : List Char) (debug_label : String) :
    Except PyErr Json :=
  match jparse cs with
  | some v => Except.ok v
  | none =>
    match scanTagged (findTaggedBlocks cs) with
    | some r => r
    | none =>
      match firstParse (findGenericBlocks cs) with
      | some v => Except.ok v
      | none =>
        match braceSpan cs with
        | some sub =>
          match jparse sub with
          | some v => Except.ok v
          | none => Except.ok (fallbackDoc cs)
        | none => Except.ok (fallbackDoc cs)

/-! ## Summary post-processing (main.py 851-857 and 883-887)

After extraction, `generate_plan` runs
`if "summary" not in plan or not plan.get("summary"): ...` to guarantee a
populated summary. The Python operators are partial: `in` raises `TypeError`
on numbers, booleans and `None`; `.get` raises `AttributeError` on lists and
strings; subscripting a list or string with a string key raises `TypeError`.
-/

/-- Python truthiness of a JSON value (`None`, `False`, zero, `""`, `[]` and
`\x7b\x7d` are falsy). -/
def pyTruthy : Json → Bool
  | Json.null => false
  | Json.bool b => b
  | Json.num lex =>
    let mantissa := (lex.toList.dropWhile (fun c => c = '-')).takeWhile
      (fun c => c ≠ 'e' && c ≠ 'E')
    !(mantissa.all (fun c => c = '0' || c = '.') && mantissa.any Char.isDigit)
  | Json.str s => s != ""
  | Json.arr l => !l.isEmpty
  | Json.obj l => !l.isEmpty

/-- Association-list lookup (Python dict access). -/
def lookupKey (fs : List (String × Json)) (k : String) : Option Json :=
  match fs with
  | [] => none
  | (k', v) :: rest => if k' = k then some v else lookupKey rest k

/-- `d.get(k)` on a dict, with `None` for a missing key. -/
def objGet (j : Json) (k : String) : Json :=
  match j with
  | Json.obj fs => (lookupKey fs k).getD Json.null
  | _ => Json.null

/-- Python `==` comparison of a JSON value against a string constant
(used by `key in someList`). -/
def isStrEq (s : String) : Json → Bool
  | Json.str t => s == t
  | _ => false

/-- Substring test (Python `needle in haystackString`). -/
def containsSub (needle hay : List Char) : Bool :=
  match hay with
  | [] => needle.isEmpty
  | _ :: rest => startsWithChars needle hay || containsSub needle rest

/-- The summary fix-up of `generate_plan`:
```
if "summary" not in plan or not plan.get("summary"):
    if text:
        plan = \x7b"summary": text\x7d
    elif "raw_response" in plan:
        plan = \x7b"summary": plan["raw_response"]\x7d
```
modelled with Python's exception behavior on each shape of `plan`. -/
def ensureSummary (plan : Json) (text : String) : Except PyErr Json :=
  match plan with
  | Json.obj fs =>
    let summaryVal := lookupKey fs "summary"
    let needsFix :=
      match summaryVal with
      | none => true
      | some v => !pyTruthy v
    if needsFix then
      if text != "" then Except.ok (Json.obj [("summary", Json.str text)])
      else
        match lookupKey fs "raw_response" with
        | some rv => Except.ok (Json.obj [("summary", rv)])
        | none => Except.ok plan
    else Except.ok plan
  | Json.arr elems =>
    if elems.any (isStrEq "summary") then Except.error PyErr.attrError
    else if text != "" then Except.ok (Json.obj [("summary", Json.str text)])
    else if elems.any (isStrEq "raw_response") then Except.error PyErr.typeError
    else Except.ok plan
  | Json.str s =>
    if containsSub ("summary".toList) s.toList then Except.error PyErr.attrError
    else if text != "" then Except.ok (Json.obj [("summary", Json.str text)])
    else if containsSub ("raw_response".toList) s.toList then Except.error PyErr.typeError
    else Except.ok plan
  | _ => Except.error PyErr.typeError

/-- `Except.ok` carrying a document whose `summary` entry is truthy. -/
def okWithTruthySummary : Except PyErr Json → Bool
  | Except.ok p => pyTruthy (objGet p "summary")
  | Except.error _ => false

/-! ## Serialization (`json.dumps`, store boundary)

`save_to_supabase` / `update_plan_in_supabase` store artifacts as
`json.dumps` text. Only the bytes of columns the update does not touch
matter for the claims below; the serializer is nevertheless a faithful
default-separator `json.dumps` with `ensure_ascii` escaping (numbers keep
their parse lexeme rather than Python's float repr). -/

/-- Hex digit character. -/
def hexDigit (n : Nat) : Char :=
  if n < 10 then Char.ofNat (48 + n) else Char.ofNat (87 + n)

/-- Four-digit hex rendering for `\uXXXX` escapes. -/
def hex4 (n : Nat) : List Char :=
  [hexDigit (n / 4096 % 16), hexDigit (n / 256 % 16),
   hexDigit (n / 16 % 16), hexDigit (n % 16)]

/-- Escape one character as `json.dumps` does with `ensure_ascii=True`. -/
def escChar (c : Char) : List Char :=
  if c = '"' then ['\\', '"']
  else if c = '\\' then ['\\', '\\']
  else if c = '\n' then ['\\', 'n']
  else if c = '\t' then ['\\', 't']
  else if c = '\r' then ['\\', 'r']
  else if c = Char.ofNat 8 then ['\\', 'b']
  else if c = Char.ofNat 12 then ['\\', 'f']
  else if c.toNat < 32 || c.toNat > 126 then
    if c.toNat < 0x10000 then '\\' :: 'u' :: hex4 c.toNat
    else
      let v := c.toNat - 0x10000
      ('\\' :: 'u' :: hex4 (0xD800 + v / 0x400)) ++
        ('\\' :: 'u' :: hex4 (0xDC00 + v % 0x400))
  else [c]

/-- Serialize a string literal with quotes. -/
def quoteStr (s : String) : String :=
  ('"' :: (s.toList.flatMap escChar) ++ ['"']).asString

mutual

/-- `json.dumps` with the default separators `", "` and `": "`. -/
def jdumps : Json → String
  | Json.null => "null"
  | Json.bool true => "true"
  | Json.bool false => "false"
  | Json.num lex => lex
  | Json.str s => quoteStr s
  | Json.arr l => "[" ++ jdumpsList l ++ "]"
  | Json.obj l => "\x7b" ++ jdumpsFields l ++ "\x7d"

/-- Comma-separated array elements. -/
def jdumpsList : List Json → String
  | [] => ""
  | [x] => jdumps x
  | x :: xs => jdumps x ++ ", " ++ jdumpsList xs

/-- Comma-separated object entries. -/
def jdumpsFields : List (String × Json) → String
  | [] => ""
  | [(k, v)] => quoteStr k ++ ": " ++ jdumps v
  | (k, v) :: xs => quoteStr k ++ ": " ++ jdumps v ++ ", " ++ jdumpsFields xs

end

/-! ## The retry wrapper (main.py 373-377, mani.py 713-721)

Both `call_openai_with_tools` and `invoke_agent_with_retry` are decorated
with `@retry(stop=stop_after_attempt(3), wait=wait_exponential(multiplier=2,
min=4, max=30), reraise=True)` and **no** `retry=` predicate: tenacity's
default re-attempts on *every* exception class. The model runs a stub
`f : attempt number → result`; the wait durations are irrelevant to the
claims and are not modelled. -/

/-- Error classes of the external capability, following the spec's taxonomy
(the code itself never distinguishes them). -/
inductive CapErr where
  | timeout
  | rateLimit
  | server5xx
  | authFailure
  | malformedRequest
  deriving DecidableEq, Repr

/-- The spec's transient/fatal classification: timeouts, rate limits and
5xx-class errors are transient; auth failures and malformed requests fatal. -/
def CapErr.isTransient : CapErr → Bool
  | CapErr.timeout => true
  | CapErr.rateLimit => true
  | CapErr.server5xx => true
  | CapErr.authFailure => false
  | CapErr.malformedRequest => false

/-- Core of the tenacity loop: run attempt `i`; on failure, if `budget`
further attempts remain, retry with attempt `i + 1`, otherwise re-raise the
last exception (`reraise=True`). Returns the result and the list of attempt
numbers actually made. No error class is inspected. -/
def retryLoop {α : Type} (f : Nat → Except CapErr α) :
    Nat → Nat → Except CapErr α × List Nat
  | budget, i =>
    match f i with
    | Except.ok a => (Except.ok a, [i])
    | Except.error e =>
      match budget with
      | 0 => (Except.error e, [i])
      | b + 1 =>
        let r := retryLoop f b (i + 1)
        (r.1, i :: r.2)

/-- One decorated invocation: `stop_after_attempt(3)` means the first
attempt plus at most two retries. -/
def call_openai_with_tools_retry {α : Type} (f : Nat → Except CapErr α) :
    Except CapErr α × List Nat :=
  retryLoop f 2 1

/-! ## The plan pipeline (`generate_plan`, main.py 798-917) -/

/-- The three stage roles of one pipeline run. -/
inductive StageRole where
  | reason
  | workout
  | meal
  deriving DecidableEq, Repr

/-- Position of a stage in the pipeline's fixed order. -/
def stageIdx : StageRole → Nat
  | StageRole.reason => 0
  | StageRole.workout => 1
  | StageRole.meal => 2

/-- One capability invocation attempt, with a logical timestamp drawn from a
monotone counter. -/
structure InvokeEvent where
  stage : StageRole
  attempt : Nat
  time : Nat
  deriving DecidableEq, Repr

/-- The retry loop instrumented with invocation events: every attempt is one
capability invocation; the clock ticks once per attempt. Returns the stage
result, the events in order, and the clock after the loop. -/
def retryStage (f : Nat → Except CapErr String) (r : StageRole) :
    Nat → Nat → Nat → Except CapErr String × List InvokeEvent × Nat
  | budget, i, t =>
    match f i with
    | Except.ok a => (Except.ok a, [⟨r, i, t⟩], t + 1)
    | Except.error e =>
      match budget with
      | 0 => (Except.error e, [⟨r, i, t⟩], t + 1)
      | b + 1 =>
        let res := retryStage f r b (i + 1) (t + 1)
        (res.1, ⟨r, i, t⟩ :: res.2.1, res.2.2)

/-- An error failing a `generate_plan` request: a capability error that
exhausted its retries, or a Python exception from extraction or the summary
fix-up. Either way FastAPI surfaces a 500 and nothing is persisted. -/
inductive GenErr where
  | cap (e : CapErr)
  | py (e : PyErr)
  deriving DecidableEq, Repr

/-- The record assembled by a successful `generate_plan` run. -/
structure GeneratedPlan where
  task_instructions : String
  workout_plan : Json
  meal_plan : Json

/-- Extraction followed by the summary fix-up, as applied to the workout and
meal stage outputs. -/
def stagePost (text : String) (lbl : String) : Except GenErr Json :=
  match extract_json_from_response text.toList lbl with
  | Except.error e => Except.error (GenErr.py e)
  | Except.ok p =>
    match ensureSummary p text with
    | Except.error e => Except.error (GenErr.py e)
    | Except.ok p' => Except.ok p'

/-- The reason-stage retry run of one `generate_plan` request. -/
def reasonRun (stub : StageRole → Nat → Except CapErr String) :
    Except CapErr String × List InvokeEvent × Nat :=
  retryStage (stub StageRole.reason) StageRole.reason 2 1 0

/-- The workout-stage retry run, clocked after the reason stage. -/
def workoutRun (stub : StageRole → Nat → Except CapErr String) :
    Except CapErr String × List InvokeEvent × Nat :=
  retryStage (stub StageRole.workout) StageRole.workout 2 1 (reasonRun stub).2.2

/-- The meal-stage retry run, clocked after the workout stage. -/
def mealRun (stub : StageRole → Nat → Except CapErr String) :
    Except CapErr String × List InvokeEvent × Nat :=
  retryStage (stub StageRole.meal) StageRole.meal 2 1 (workoutRun stub).2.2

/-- One `generate_plan` run over a per-stage, per-attempt capability stub:
reasoning stage (raw text, no extraction), then the workout stage with
extraction and summary fix-up, a pacing `time.sleep(2)` (no event), then the
meal stage likewise. A stage failure aborts the run; later stages are not
invoked. Returns the outcome and the invocation trace. -/
def generate_plan_run (stub : StageRole → Nat → Except CapErr String) :
    Except GenErr GeneratedPlan × List InvokeEvent :=
  match (reasonRun stub).1 with
  | Except.error e => (Except.error (GenErr.cap e), (reasonRun stub).2.1)
  | Except.ok task_instructions =>
    match (workoutRun stub).1 with
    | Except.error e =>
      (Except.error (GenErr.cap e), (reasonRun stub).2.1 ++ (workoutRun stub).2.1)
    | Except.ok workout_text =>
      match stagePost workout_text "Workout" with
      | Except.error e =>
        (Except.error e, (reasonRun stub).2.1 ++ (workoutRun stub).2.1)
      | Except.ok workout_plan =>
        match (mealRun stub).1 with
        | Except.error e =>
          (Except.error (GenErr.cap e),
            (reasonRun stub).2.1 ++ (workoutRun stub).2.1 ++ (mealRun stub).2.1)
        | Except.ok meal_text =>
          match stagePost meal_text "Meal" with
          | Except.error e =>
            (Except.error e,
              (reasonRun stub).2.1 ++ (workoutRun stub).2.1 ++ (mealRun stub).2.1)
          | Except.ok meal_plan =>
            (Except.ok ⟨task_instructions, workout_plan, meal_plan⟩,
              (reasonRun stub).2.1 ++ (workoutRun stub).2.1 ++ (mealRun stub).2.1)

/-! ## The plan store and the correction pipeline
(`correct_plan`, main.py 920-1026; `update_plan_in_supabase`, 535-557)

A `fitness_plans` row holds artifacts as serialized text. `correct_plan`
loads the latest row for the user (404 when none), parses its three text
blobs, re-invokes only the targeted planner stages, updates only the
targeted columns, and answers with the corrected artifacts — the untargeted
response fields are `None`. -/

/-- One `fitness_plans` row. Timestamps are logical `Nat`s; text columns are
opaque serialized strings. -/
structure PlanRow where
  id : String
  user_id : String
  user_profile : String
  reasoning_analysis : Option String
  workout_plan : String
  meal_plan : String
  created_at : Nat
  updated_at : Option Nat
  deriving DecidableEq, Repr

/-- `select * ... eq(user_id) ... order(created_at, desc) ... limit(1)`:
the row with the greatest creation time among the user's rows. -/
def queryLatest (store : List PlanRow) (uid : String) : Option PlanRow :=
  (store.filter (fun r => r.user_id == uid)).foldl
    (fun acc r =>
      match acc with
      | none => some r
      | some b => if b.created_at < r.created_at then some r else some b)
    none

/-- `update_plan_in_supabase(plan_id, workout_plan, meal_plan)`: builds an
update containing `updated_at` plus `json.dumps` of exactly the artifacts
that are not `None`, and applies it to the row with the given id. Columns
absent from the update keep their stored bytes. -/
def update_plan_in_supabase (store : List PlanRow) (pid : String)
    (w m : Option Json) (now : Nat) : List PlanRow :=
  store.map fun r =>
    if r.id == pid then
      { r with
        workout_plan := match w with
          | some j => jdumps j
          | none => r.workout_plan
        meal_plan := match m with
          | some j => jdumps j
          | none => r.meal_plan
        updated_at := some now }
    else r

/-- How `correct_plan` fails: the distinct 404 Not-Found for a subject with
no stored plan, versus the generic 500 for store/parse/capability errors. -/
inductive CorrErr where
  | notFound
  | internal
  deriving DecidableEq, Repr

/-- The `CorrectionResponse` payload (main.py 1013-1020): untargeted
artifacts are answered as `None`. -/
structure CorrectionResponse where
  id : String
  user_id : String
  workout_plan : Option Json
  meal_plan : Option Json
  correction_applied : String
  updated_at : Nat

/-- `request.plan_type in ["workout", "both"]`. -/
def targetsWorkout (pt : String) : Bool := pt == "workout" || pt == "both"

/-- `request.plan_type in ["meal", "both"]`. -/
def targetsMeal (pt : String) : Bool := pt == "meal" || pt == "both"

/-- Final step of `correct_plan`: update only the targeted columns, then
build the response carrying the corrected artifacts for targeted plans and
`None` for the rest. -/
def finishCorrection (store : List PlanRow) (plan : PlanRow)
    (uid instruction plan_type : String) (now : Nat)
    (correctedW correctedM : Json) (evs : List InvokeEvent) :
    Except CorrErr CorrectionResponse × List PlanRow × List InvokeEvent :=
  let wArg := if targetsWorkout plan_type then some correctedW else none
  let mArg := if targetsMeal plan_type then some correctedM else none
  (Except.ok ⟨plan.id, uid, wArg, mArg, instruction, now⟩,
    update_plan_in_supabase store plan.id wArg mArg now, evs)

/-- Meal phase of `correct_plan`: when targeted, invoke the meal planner
(with retry) on the correction prompt and extract; otherwise pass the stored
meal document through untouched. -/
def correctMealPhase (store : List PlanRow) (plan : PlanRow)
    (uid instruction plan_type : String)
    (stub : StageRole → Nat → Except CapErr String) (now : Nat)
    (correctedW currentM : Json) (evs : List InvokeEvent) (t : Nat) :
    Except CorrErr CorrectionResponse × List PlanRow × List InvokeEvent :=
  if targetsMeal plan_type then
    match (retryStage (stub StageRole.meal) StageRole.meal 2 1 t).1 with
    | Except.error _ =>
      (Except.error CorrErr.internal, store,
        evs ++ (retryStage (stub StageRole.meal) StageRole.meal 2 1 t).2.1)
    | Except.ok meal_text =>
      match extract_json_from_response meal_text.toList "" with
      | Except.error _ =>
        (Except.error CorrErr.internal, store,
          evs ++ (retryStage (stub StageRole.meal) StageRole.meal 2 1 t).2.1)
      | Except.ok correctedM =>
        finishCorrection store plan uid instruction plan_type now
          correctedW correctedM
          (evs ++ (retryStage (stub StageRole.meal) StageRole.meal 2 1 t).2.1)
  else
    finishCorrection store plan uid instruction plan_type now
      correctedW currentM evs

/-- Workout phase of `correct_plan`: when targeted, invoke the workout
planner (with retry) on the correction prompt and extract, then continue
with the meal phase; otherwise continue with the stored workout document
untouched. -/
def correctWorkoutPhase (store : List PlanRow) (plan : PlanRow)
    (uid instruction plan_type : String)
    (stub : StageRole → Nat → Except CapErr String) (now : Nat)
    (currentW currentM : Json) :
    Except CorrErr CorrectionResponse × List PlanRow × List InvokeEvent :=
  if targetsWorkout plan_type then
    match (retryStage (stub StageRole.workout) StageRole.workout 2 1 0).1 with
    | Except.error _ =>
      (Except.error CorrErr.internal, store,
        (retryStage (stub StageRole.workout) StageRole.workout 2 1 0).2.1)
    | Except.ok workout_text =>
      match extract_json_from_response workout_text.toList "" with
      | Except.error _ =>
        (Except.error CorrErr.internal, store,
          (retryStage (stub StageRole.workout) StageRole.workout 2 1 0).2.1)
      | Except.ok correctedW =>
        correctMealPhase store plan uid instruction plan_type stub now
          correctedW currentM
          (retryStage (stub StageRole.workout) StageRole.workout 2 1 0).2.1
          (retryStage (stub StageRole.workout) StageRole.workout 2 1 0).2.2
  else
    correctMealPhase store plan uid instruction plan_type stub now
      currentW currentM [] 0

/-- One `correct_plan` request over the store: fetch the latest row for the
user (404 if none), parse the stored profile and artifacts (500 on parse
failure), correct the workout plan when targeted, then the meal plan when
targeted, update the row, and answer. Returns the HTTP-level outcome, the
resulting store, and the capability invocation trace. -/
def correct_plan_run (store : List PlanRow) (uid instruction plan_type : String)
    (stub : StageRole → Nat → Except CapErr String) (now : Nat) :
    Except CorrErr CorrectionResponse × List PlanRow × List InvokeEvent :=
  match queryLatest store uid with
  | none => (Except.error CorrErr.notFound, store, [])
  | some plan =>
    match jparse plan.workout_plan.toList, jparse plan.meal_plan.toList,
        jparse plan.user_profile.toList with
    | some currentW, some currentM, some _profile =>
      correctWorkoutPhase store plan uid instruction plan_type stub now
        currentW currentM
    | _, _, _ => (Except.error CorrErr.internal, store, [])

/-! # Theorems -/

/-- Every trace produced by `retryLoop` starts with the first attempt
number. -/
theorem retryLoop_trace_head {α : Type} (f : Nat → Except CapErr α)
    (b i : Nat) : ∃ rest, (retryLoop f b i).2 = i :: rest := by
  rw [retryLoop]
  cases h : f i with
  | ok a => exact ⟨[], rfl⟩
  | error e =>
    cases b with
    | zero => exact ⟨[], rfl⟩
    | succ b' => exact ⟨(retryLoop f b' (i + 1)).2, rfl⟩

/-- C8. Round-trip with the strict parser: on any input that `json.loads`
accepts, `extract_json_from_response` returns exactly that direct parse
(the cascade's first step). -/
theorem extract_round_trip (t : List Char) (lbl : String) (v : Json)
    (h : jparse t = some v) :
    extract_json_from_response t lbl = Except.ok v := by
  unfold extract_json_from_response
  rw [h]

/-- Witness for `extract_round_trip` at a concrete valid document. -/
theorem extract_round_trip_witness :
    jparse ("\x7b\"summary\": \"do X\"\x7d".toList) =
      some (Json.obj [("summary", Json.str "do X")]) ∧
    extract_json_from_response ("\x7b\"summary\": \"do X\"\x7d".toList) "Workout" =
      Except.ok (Json.obj [("summary", Json.str "do X")]) :=
  ⟨rfl, extract_round_trip _ "Workout" _ rfl⟩

/-- C10. Extraction is deterministic: equal input strings and equal debug
labels produce equal documents — the result depends only on the text (the
label is only printed by the Python code and the function reads no hidden
state). -/
theorem extract_deterministic (t1 t2 : List Char) (l1 l2 : String)
    (h1 : t1 = t2) (h2 : l1 = l2) :
    extract_json_from_response t1 l1 = extract_json_from_response t2 l2 := by
  subst h1
  subst h2
  rfl

/-- Witness for `extract_deterministic` at a concrete call pair. -/
theorem extract_deterministic_witness :
    extract_json_from_response ("no structure here at all".toList) "Meal" =
      extract_json_from_response ("no structure here at all".toList) "Meal" :=
  extract_deterministic _ _ _ _ rfl rfl

/-- C5. Retry budget is exactly 3 attempts: two transient failures followed
by a success yield the success with attempts `[1, 2, 3]` recorded; three
transient failures re-raise the third error with attempts `[1, 2, 3]` and no
fourth attempt. -/
theorem retry_budget_three_attempts :
    (∀ (f : Nat → Except CapErr String) (e1 e2 : CapErr) (v : String),
      CapErr.isTransient e1 = true → CapErr.isTransient e2 = true →
      f 1 = Except.error e1 → f 2 = Except.error e2 → f 3 = Except.ok v →
      call_openai_with_tools_retry f = (Except.ok v, [1, 2, 3])) ∧
    (∀ (f : Nat → Except CapErr String) (e1 e2 e3 : CapErr),
      CapErr.isTransient e1 = true → CapErr.isTransient e2 = true →
      CapErr.isTransient e3 = true →
      f 1 = Except.error e1 → f 2 = Except.error e2 → f 3 = Except.error e3 →
      call_openai_with_tools_retry f = (Except.error e3, [1, 2, 3])) := by
  constructor
  · intro f e1 e2 v _ _ h1 h2 h3
    unfold call_openai_with_tools_retry
    simp [retryLoop, h1, h2, h3]
  · intro f e1 e2 e3 _ _ _ h1 h2 h3
    unfold call_openai_with_tools_retry
    simp [retryLoop, h1, h2, h3]

/-- Stub failing transiently on attempts 1 and 2, succeeding on attempt 3. -/
def twoFailThenOk : Nat → Except CapErr String := fun i =>
  if i ≤ 2 then Except.error CapErr.rateLimit else Except.ok "done"

/-- Stub failing transiently on every attempt. -/
def alwaysRateLimited : Nat → Except CapErr String := fun _ =>
  Except.error CapErr.rateLimit

/-- Witness for `retry_budget_three_attempts` on concrete stubs. -/
theorem retry_budget_three_attempts_witness :
    call_openai_with_tools_retry twoFailThenOk = (Except.ok "done", [1, 2, 3]) ∧
    call_openai_with_tools_retry alwaysRateLimited =
      (Except.error CapErr.rateLimit, [1, 2, 3]) :=
  ⟨retry_budget_three_attempts.1 twoFailThenOk CapErr.rateLimit CapErr.rateLimit
      "done" rfl rfl rfl rfl rfl,
    retry_budget_three_attempts.2 alwaysRateLimited CapErr.rateLimit
      CapErr.rateLimit CapErr.rateLimit rfl rfl rfl rfl rfl rfl⟩

/-- Stub raising a fatal (non-transient) error on attempt 1 and succeeding
on attempt 2. -/
def fatalThenOk : Nat → Except CapErr String := fun i =>
  if i = 1 then Except.error CapErr.authFailure else Except.ok "done"

/-- C2 counterexample. A fatal capability error raised on the first attempt
is **not** propagated immediately: the decorator carries no retryable-error
predicate, so the auth failure is retried and the second attempt's result is
returned. -/
theorem retry_fatal_retried_counterexample :
    CapErr.isTransient CapErr.authFailure = false ∧
    fatalThenOk 1 = Except.error CapErr.authFailure ∧
    call_openai_with_tools_retry fatalThenOk = (Except.ok "done", [1, 2]) :=
  ⟨rfl, rfl, rfl⟩

/-- C2 as amended. The retry loop re-attempts every exception class: any
first-attempt failure — fatal classes included — is followed by a second
attempt; errors only propagate once the 3-attempt budget is exhausted. -/
theorem retry_reattempts_every_error_class :
    ∀ (f : Nat → Except CapErr String) (e : CapErr),
      f 1 = Except.error e → 2 ∈ (call_openai_with_tools_retry f).2 := by
  intro f e h
  obtain ⟨rest, hr⟩ := retryLoop_trace_head f 1 2
  unfold call_openai_with_tools_retry
  rw [retryLoop, h]
  simp [hr]

/-- Witness for `retry_reattempts_every_error_class` on the fatal-error
stub. -/
theorem retry_reattempts_every_error_class_witness :
    2 ∈ (call_openai_with_tools_retry fatalThenOk).2 :=
  retry_reattempts_every_error_class fatalThenOk CapErr.authFailure rfl

/-- C9. Correcting a subject with no stored plan fails with the distinct
Not-Found condition (not the generic internal failure), performs no
capability invocation and leaves the store untouched. -/
theorem correction_not_found :
    ∀ (store : List PlanRow) (uid instruction plan_type : String)
      (stub : StageRole → Nat → Except CapErr String) (now : Nat),
      queryLatest store uid = none →
      correct_plan_run store uid instruction plan_type stub now =
          (Except.error CorrErr.notFound, store, []) ∧
        CorrErr.notFound ≠ CorrErr.internal := by
  intro store uid instruction plan_type stub now h
  refine ⟨?_, by simp⟩
  unfold correct_plan_run
  rw [h]

/-- Witness for `correction_not_found` on the empty store. -/
theorem correction_not_found_witness :
    correct_plan_run [] "unknown-subject" "add cardio" "both"
        (fun _ _ => Except.ok "ignored") 3 =
      (Except.error CorrErr.notFound, [], []) ∧
    CorrErr.notFound ≠ CorrErr.internal :=
  correction_not_found [] "unknown-subject" "add cardio" "both"
    (fun _ _ => Except.ok "ignored") 3 rfl

/-- When the first tagged block whose content parses yields a dict, the
tagged scan returns it (the `.keys()` print succeeds). -/
theorem scanTagged_of_firstParse (bs : List (List Char)) (v : Json)
    (h1 : firstParse bs = some v) (h2 : v.isObj = true) :
    scanTagged bs = some (Except.ok v) := by
  induction bs with
  | nil => simp [firstParse] at h1
  | cons b rest ih =>
    rw [firstParse] at h1
    rw [scanTagged]
    cases hb : jparse b with
    | none =>
      rw [hb] at h1
      exact ih h1
    | some w =>
      rw [hb] at h1
      obtain rfl : w = v := Option.some.inj h1
      cases w with
      | obj fs => rfl
      | null => simp [Json.isObj] at h2
      | bool b => simp [Json.isObj] at h2
      | num s => simp [Json.isObj] at h2
      | str s => simp [Json.isObj] at h2
      | arr l => simp [Json.isObj] at h2

/-- A raw text whose whole body is a JSON string while its interior carries
a tagged block with a valid dict and a genuinely untagged generic block with
invalid content: the direct parse (cascade step 1) wins. -/
def directWinsInput : List Char :=
  "\"a \x60\x60\x60json \x7b\x7d \x60\x60\x60 b \x60\x60\x60 %% \x60\x60\x60 c\"".toList

/-- A raw text whose only tagged block parses to a list, not a dict. -/
def taggedListInput : List Char :=
  "x\n\x60\x60\x60json\n[1, 2]\n\x60\x60\x60".toList

/-- C7 counterexample. As universally stated the precedence claim is false:
(i) `directWinsInput` contains a tagged block parsing to the dict `\x7b\x7d`
and a generic untagged block (`%%`) that does not parse, yet extraction
returns the direct parse of the whole text (a JSON string), not the tagged
block's parse; (ii) on `taggedListInput` the first parsing tagged block
yields a list and extraction raises `AttributeError` instead of returning
its parse. -/
theorem fence_precedence_counterexample :
    (firstParse (findTaggedBlocks directWinsInput) = some (Json.obj []) ∧
      (findGenericBlocks directWinsInput).any (fun b => (jparse b).isNone) = true ∧
      extract_json_from_response directWinsInput "" =
        Except.ok (Json.str "a \x60\x60\x60json \x7b\x7d \x60\x60\x60 b \x60\x60\x60 %% \x60\x60\x60 c") ∧
      Json.str "a \x60\x60\x60json \x7b\x7d \x60\x60\x60 b \x60\x60\x60 %% \x60\x60\x60 c" ≠ Json.obj []) ∧
    (firstParse (findTaggedBlocks taggedListInput) =
        some (Json.arr [Json.num "1", Json.num "2"]) ∧
      extract_json_from_response taggedListInput "" = Except.error PyErr.attrError) :=
  ⟨⟨rfl, rfl, rfl, fun h => Json.noConfusion h⟩, ⟨rfl, rfl⟩⟩

/-- C7 as amended. Fence-cascade precedence holds once the direct parse
fails and the first parsing tagged block yields a dict: given also a generic
block with unparseable content, extraction returns the tagged block's
parse. -/
theorem fence_cascade_tagged_precedence (t : List Char) (lbl : String)
    (v : Json)
    (hdirect : jparse t = none)
    (htag : firstParse (findTaggedBlocks t) = some v)
    (hobj : v.isObj = true)
    (hgen : (findGenericBlocks t).any (fun b => (jparse b).isNone) = true) :
    extract_json_from_response t lbl = Except.ok v := by
  unfold extract_json_from_response
  rw [hdirect, scanTagged_of_firstParse _ v htag hobj]

/-- The spec's concrete scenario: prose around a tagged block holding
`\x7b"summary": "do X"\x7d`, with the generic pattern only matching the
unparseable `json ...` content. -/
def precedenceInput : List Char :=
  "Sure! Here is your plan:\n\x60\x60\x60json\n\x7b\"summary\": \"do X\"\x7d\n\x60\x60\x60\nLet me know!".toList

/-- Witness for `fence_cascade_tagged_precedence` on the spec's scenario. -/
theorem fence_cascade_tagged_precedence_witness :
    jparse precedenceInput = none ∧
    firstParse (findTaggedBlocks precedenceInput) =
      some (Json.obj [("summary", Json.str "do X")]) ∧
    (Json.obj [("summary", Json.str "do X")]).isObj = true ∧
    (findGenericBlocks precedenceInput).any (fun b => (jparse b).isNone) = true ∧
    extract_json_from_response precedenceInput "Workout" =
      Except.ok (Json.obj [("summary", Json.str "do X")]) :=
  ⟨rfl, rfl, rfl, rfl,
    fence_cascade_tagged_precedence precedenceInput "Workout" _ rfl rfl rfl rfl⟩

/-- C1 counterexample. Extraction is not the claimed total
document-producer: the input `"null"` parses directly to `None` (a null,
not a key/value document) and then crashes the pipeline's summary fix-up
with `TypeError`; the input `taggedListInput` makes
`extract_json_from_response` itself raise `AttributeError` (the
`list(result.keys())` debug print on a non-dict tagged parse). -/
theorem extraction_totality_counterexample :
    extract_json_from_response ("null".toList) "" = Except.ok Json.null ∧
    Json.null.isObj = false ∧
    ensureSummary Json.null "null" = Except.error PyErr.typeError ∧
    extract_json_from_response taggedListInput "Workout" =
      Except.error PyErr.attrError :=
  ⟨rfl, rfl, rfl, rfl⟩

/-- The brace-span step's outcome: the parse of the span when one exists. -/
def braceParsed (t : List Char) : Option Json :=
  (braceSpan t).bind (fun sub => jparse sub)

/-- Any error produced by the tagged scan is the `.keys()`
`AttributeError`. -/
theorem scanTagged_error (bs : List (List Char)) (e : PyErr)
    (h : scanTagged bs = some (Except.error e)) : e = PyErr.attrError := by
  induction bs with
  | nil => simp [scanTagged] at h
  | cons b rest ih =>
    rw [scanTagged] at h
    cases hb : jparse b with
    | none =>
      rw [hb] at h
      exact ih h
    | some w =>
      rw [hb] at h
      cases w with
      | obj fs => simp at h
      | null => exact (Except.error.inj (Option.some.inj h)).symm
      | bool b2 => exact (Except.error.inj (Option.some.inj h)).symm
      | num s => exact (Except.error.inj (Option.some.inj h)).symm
      | str s => exact (Except.error.inj (Option.some.inj h)).symm
      | arr l => exact (Except.error.inj (Option.some.inj h)).symm

/-- C1 as amended. (a) The only exception `extract_json_from_response` can
raise is the `AttributeError` of the tagged-block `.keys()` debug print, and
only when the tagged scan hits a non-dict parse; (b) whenever the extracted
value is a dict and the stage's raw text is non-empty, the summary fix-up
succeeds and yields a document with a truthy `summary` field; (c) when every
cascade step fails to parse, extraction returns the guaranteed fallback
`\x7b"raw_response": text\x7d`, which is a dict. -/
theorem extraction_fallback_and_summary :
    (∀ (t : List Char) (lbl : String) (e : PyErr),
      extract_json_from_response t lbl = Except.error e →
      e = PyErr.attrError ∧
        scanTagged (findTaggedBlocks t) = some (Except.error PyErr.attrError)) ∧
    (∀ (t : List Char) (lbl : String) (p : Json),
      extract_json_from_response t lbl = Except.ok p →
      p.isObj = true → t ≠ [] →
      okWithTruthySummary (ensureSummary p t.asString) = true) ∧
    (∀ (t : List Char) (lbl : String),
      jparse t = none →
      scanTagged (findTaggedBlocks t) = none →
      firstParse (findGenericBlocks t) = none →
      braceParsed t = none →
      extract_json_from_response t lbl = Except.ok (fallbackDoc t) ∧
        (fallbackDoc t).isObj = true) := by
  refine ⟨?_, ?_, ?_⟩
  · intro t lbl e h
    unfold extract_json_from_response at h
    split at h
    · exact absurd h (by simp)
    · split at h
      · next r hscan =>
        subst h
        have he : e = PyErr.attrError := scanTagged_error _ e hscan
        subst he
        exact ⟨rfl, hscan⟩
      · split at h
        · exact absurd h (by simp)
        · split at h
          · split at h
            · exact absurd h (by simp)
            · exact absurd h (by simp)
          · exact absurd h (by simp)
  · intro t lbl p hex hobj hne
    cases p with
    | null => simp [Json.isObj] at hobj
    | bool b => simp [Json.isObj] at hobj
    | num s => simp [Json.isObj] at hobj
    | str s => simp [Json.isObj] at hobj
    | arr l => simp [Json.isObj] at hobj
    | obj fs =>
      have htext : (t.asString != "") = true := by
        refine bne_iff_ne.mpr ?_
        intro hcontra
        exact hne (congrArg String.data hcontra)
      have hstr : ∀ s : String, pyTruthy (Json.str s) = (s != "") :=
        fun s => rfl
      cases hs : lookupKey fs "summary" with
      | none =>
        simp [ensureSummary, hs, htext, okWithTruthySummary, objGet, lookupKey,
          hstr]
      | some v =>
        cases hv : pyTruthy v with
        | false =>
          simp [ensureSummary, hs, hv, htext, okWithTruthySummary, objGet,
            lookupKey, hstr]
        | true =>
          simp [ensureSummary, hs, hv, okWithTruthySummary, objGet]
  · intro t lbl h1 h2 h3 h4
    refine ⟨?_, rfl⟩
    unfold extract_json_from_response
    rw [h1, h2, h3]
    unfold braceParsed at h4
    cases hb : braceSpan t with
    | none => rfl
    | some sub =>
      rw [hb] at h4
      have h5 : jparse sub = none := h4
      show (match jparse sub with
        | some v => Except.ok v
        | none => Except.ok (fallbackDoc t)) = Except.ok (fallbackDoc t)
      rw [h5]

/-- Witness for `extraction_fallback_and_summary`: part (a) at the
list-in-tagged-block input, part (b) at prose input (fallback document,
non-empty text), part (c) at prose with no fences or braces. -/
theorem extraction_fallback_and_summary_witness :
    (PyErr.attrError = PyErr.attrError ∧
      scanTagged (findTaggedBlocks taggedListInput) =
        some (Except.error PyErr.attrError)) ∧
    okWithTruthySummary
        (ensureSummary (fallbackDoc ("hello".toList)) ("hello".toList).asString) =
      true ∧
    (extract_json_from_response ("no structure here at all".toList) "Meal" =
        Except.ok (fallbackDoc ("no structure here at all".toList)) ∧
      (fallbackDoc ("no structure here at all".toList)).isObj = true) :=
  ⟨extraction_fallback_and_summary.1 taggedListInput "Workout" PyErr.attrError rfl,
    extraction_fallback_and_summary.2.1 ("hello".toList) ""
      (fallbackDoc ("hello".toList)) rfl rfl (by simp),
    extraction_fallback_and_summary.2.2 ("no structure here at all".toList)
      "Meal" rfl rfl rfl rfl⟩

/-- An update that omits the meal column preserves every row's meal bytes. -/
theorem update_map_meal (store : List PlanRow) (pid : String) (w : Option Json)
    (now : Nat) :
    (update_plan_in_supabase store pid w none now).map PlanRow.meal_plan =
      store.map PlanRow.meal_plan := by
  induction store with
  | nil => rfl
  | cons r rest ih =>
    simp only [update_plan_in_supabase, List.map_cons] at ih ⊢
    rw [ih]
    by_cases hid : (r.id == pid) = true
    · simp [hid]
    · simp [hid]

/-- An update that omits the workout column preserves every row's workout
bytes. -/
theorem update_map_workout (store : List PlanRow) (pid : String)
    (m : Option Json) (now : Nat) :
    (update_plan_in_supabase store pid none m now).map PlanRow.workout_plan =
      store.map PlanRow.workout_plan := by
  induction store with
  | nil => rfl
  | cons r rest ih =>
    simp only [update_plan_in_supabase, List.map_cons] at ih ⊢
    rw [ih]
    by_cases hid : (r.id == pid) = true
    · simp [hid]
    · simp [hid]

/-- Every event logged by one stage's retry loop carries that stage. -/
theorem retryStage_stage_all (f : Nat → Except CapErr String) (r : StageRole)
    (b : Nat) : ∀ i t : Nat,
    ((retryStage f r b i t).2.1.all (fun ev => ev.stage == r)) = true := by
  induction b with
  | zero =>
    intro i t
    rw [retryStage]
    cases f i <;> simp
  | succ b' ih =>
    intro i t
    rw [retryStage]
    cases h : f i with
    | ok a => simp
    | error e => simp [ih (i + 1) (t + 1)]

/-- With `plan_type = "workout"` the meal phase is skipped; the update and
response carry only the workout artifact. -/
theorem correctMealPhase_workout (store : List PlanRow) (plan : PlanRow)
    (uid instruction : String) (stub : StageRole → Nat → Except CapErr String)
    (now : Nat) (cw cm : Json) (evs : List InvokeEvent) (t : Nat) :
    correctMealPhase store plan uid instruction "workout" stub now cw cm evs t =
      (Except.ok ⟨plan.id, uid, some cw, none, instruction, now⟩,
        update_plan_in_supabase store plan.id (some cw) none now, evs) := by
  unfold correctMealPhase finishCorrection
  simp [show targetsMeal "workout" = false from rfl,
    show targetsWorkout "workout" = true from rfl]

/-- With `plan_type = "meal"` the final step updates and answers only the
meal artifact. -/
theorem finishCorrection_meal (store : List PlanRow) (plan : PlanRow)
    (uid instruction : String) (now : Nat) (cw cm : Json)
    (evs : List InvokeEvent) :
    finishCorrection store plan uid instruction "meal" now cw cm evs =
      (Except.ok ⟨plan.id, uid, none, some cm, instruction, now⟩,
        update_plan_in_supabase store plan.id none (some cm) now, evs) := by
  unfold finishCorrection
  simp [show targetsMeal "meal" = true from rfl,
    show targetsWorkout "meal" = false from rfl]

/-- A `target=workout` phase run keeps every row's meal bytes and logs only
workout-stage invocations. -/
theorem workoutPhase_meal_isolation (store : List PlanRow) (plan : PlanRow)
    (uid instruction : String) (stub : StageRole → Nat → Except CapErr String)
    (now : Nat) (cw cm : Json) :
    (correctWorkoutPhase store plan uid instruction "workout" stub now cw cm).2.1.map
        PlanRow.meal_plan = store.map PlanRow.meal_plan ∧
    ((correctWorkoutPhase store plan uid instruction "workout" stub now cw cm).2.2.all
      (fun ev => ev.stage == StageRole.workout)) = true := by
  unfold correctWorkoutPhase
  rw [if_pos (show targetsWorkout "workout" = true from rfl)]
  split
  · exact ⟨rfl, retryStage_stage_all _ _ _ _ _⟩
  · split
    · exact ⟨rfl, retryStage_stage_all _ _ _ _ _⟩
    · next correctedW hx =>
      rw [correctMealPhase_workout]
      exact ⟨update_map_meal store plan.id (some correctedW) now,
        retryStage_stage_all _ _ _ _ _⟩

/-- A `target=meal` phase run keeps every row's workout bytes and logs only
meal-stage invocations. -/
theorem mealPhase_workout_isolation (store : List PlanRow) (plan : PlanRow)
    (uid instruction : String) (stub : StageRole → Nat → Except CapErr String)
    (now : Nat) (cw cm : Json) :
    (correctWorkoutPhase store plan uid instruction "meal" stub now cw cm).2.1.map
        PlanRow.workout_plan = store.map PlanRow.workout_plan ∧
    ((correctWorkoutPhase store plan uid instruction "meal" stub now cw cm).2.2.all
      (fun ev => ev.stage == StageRole.meal)) = true := by
  show (correctMealPhase store plan uid instruction "meal" stub now cw cm [] 0).2.1.map
        PlanRow.workout_plan = store.map PlanRow.workout_plan ∧
    ((correctMealPhase store plan uid instruction "meal" stub now cw cm [] 0).2.2.all
      (fun ev => ev.stage == StageRole.meal)) = true
  unfold correctMealPhase
  rw [if_pos (show targetsMeal "meal" = true from rfl)]
  split
  · exact ⟨rfl, retryStage_stage_all _ _ _ _ _⟩
  · split
    · exact ⟨rfl, retryStage_stage_all _ _ _ _ _⟩
    · next correctedM hx =>
      rw [finishCorrection_meal]
      exact ⟨update_map_workout store plan.id (some correctedM) now,
        retryStage_stage_all _ _ _ _ _⟩

/-- Dispatch: a correction run either leaves the store as-is with an empty
trace (404 or parse failure) or is one workout-phase run. -/
theorem correct_plan_run_shape (store : List PlanRow)
    (uid instruction plan_type : String)
    (stub : StageRole → Nat → Except CapErr String) (now : Nat) :
    (correct_plan_run store uid instruction plan_type stub now).2 = (store, []) ∨
    ∃ plan cw cm,
      correct_plan_run store uid instruction plan_type stub now =
        correctWorkoutPhase store plan uid instruction plan_type stub now cw cm := by
  unfold correct_plan_run
  split
  · exact Or.inl rfl
  · split
    · exact Or.inr ⟨_, _, _, rfl⟩
    · exact Or.inl rfl

/-- C4. Partial-update isolation: a `target=workout` correction leaves every
row's persisted meal-plan bytes identical and logs no meal-stage invocation;
a `target=meal` correction leaves every row's workout-plan bytes identical
and logs no workout-stage invocation. -/
theorem correction_partial_update_isolation :
    ∀ (store : List PlanRow) (uid instruction : String)
      (stub : StageRole → Nat → Except CapErr String) (now : Nat),
      ((correct_plan_run store uid instruction "workout" stub now).2.1.map
          PlanRow.meal_plan = store.map PlanRow.meal_plan ∧
        ((correct_plan_run store uid instruction "workout" stub now).2.2.all
          (fun ev => ev.stage == StageRole.workout)) = true) ∧
      ((correct_plan_run store uid instruction "meal" stub now).2.1.map
          PlanRow.workout_plan = store.map PlanRow.workout_plan ∧
        ((correct_plan_run store uid instruction "meal" stub now).2.2.all
          (fun ev => ev.stage == StageRole.meal)) = true) := by
  intro store uid instruction stub now
  constructor
  · rcases correct_plan_run_shape store uid instruction "workout" stub now with
      h | ⟨plan, cw, cm, h⟩
    · rw [show (correct_plan_run store uid instruction "workout" stub now).2.1 =
          ((correct_plan_run store uid instruction "workout" stub now).2).1 from rfl,
        show (correct_plan_run store uid instruction "workout" stub now).2.2 =
          ((correct_plan_run store uid instruction "workout" stub now).2).2 from rfl,
        h]
      exact ⟨rfl, rfl⟩
    · rw [h]
      exact workoutPhase_meal_isolation store plan uid instruction stub now cw cm
  · rcases correct_plan_run_shape store uid instruction "meal" stub now with
      h | ⟨plan, cw, cm, h⟩
    · rw [show (correct_plan_run store uid instruction "meal" stub now).2.1 =
          ((correct_plan_run store uid instruction "meal" stub now).2).1 from rfl,
        show (correct_plan_run store uid instruction "meal" stub now).2.2 =
          ((correct_plan_run store uid instruction "meal" stub now).2).2 from rfl,
        h]
      exact ⟨rfl, rfl⟩
    · rw [h]
      exact mealPhase_workout_isolation store plan uid instruction stub now cw cm

/-- A stored plan row with distinct workout and meal artifacts. -/
def storedRow : PlanRow :=
  { id := "p1"
    user_id := "u1"
    user_profile := "\x7b\"profile_text\": \"35yo, desk job\"\x7d"
    reasoning_analysis := none
    workout_plan := "\x7b\"summary\": \"lift\"\x7d"
    meal_plan := "\x7b\"summary\": \"eat\"\x7d"
    created_at := 5
    updated_at := none }

/-- A planner stub answering a fixed corrected document. -/
def corrStub : StageRole → Nat → Except CapErr String := fun _ _ =>
  Except.ok "\x7b\"summary\": \"new\"\x7d"

/-- C3 counterexample. The correction response does not carry the
pre-correction values of untargeted artifacts: with a stored meal plan
`\x7b"summary": "eat"\x7d` and `target=workout`, the returned record has
`meal_plan = None`, not the prior meal plan. -/
theorem correction_response_counterexample :
    jparse (storedRow.meal_plan.toList) =
      some (Json.obj [("summary", Json.str "eat")]) ∧
    (correct_plan_run [storedRow] "u1" "more cardio" "workout" corrStub 9).1 =
      Except.ok
        { id := "p1"
          user_id := "u1"
          workout_plan := some (Json.obj [("summary", Json.str "new")])
          meal_plan := none
          correction_applied := "more cardio"
          updated_at := 9 } ∧
    (none : Option Json) ≠ some (Json.obj [("summary", Json.str "eat")]) :=
  ⟨rfl, rfl, fun h => Option.noConfusion h⟩

/-- A successful correction run factors through one workout-phase run. -/
theorem correct_plan_run_ok_shape (store : List PlanRow)
    (uid instruction plan_type : String)
    (stub : StageRole → Nat → Except CapErr String) (now : Nat)
    (resp : CorrectionResponse)
    (h : (correct_plan_run store uid instruction plan_type stub now).1 =
      Except.ok resp) :
    ∃ plan cw cm,
      (correctWorkoutPhase store plan uid instruction plan_type stub now cw cm).1 =
        Except.ok resp := by
  unfold correct_plan_run at h
  split at h
  · exact absurd h (by simp)
  · split at h
    · exact ⟨_, _, _, h⟩
    · exact absurd h (by simp)

/-- A successful `target=workout` phase answers `meal_plan = None`. -/
theorem workoutPhase_ok_meal_none (store : List PlanRow) (plan : PlanRow)
    (uid instruction : String) (stub : StageRole → Nat → Except CapErr String)
    (now : Nat) (cw cm : Json) (resp : CorrectionResponse)
    (h : (correctWorkoutPhase store plan uid instruction "workout" stub now cw cm).1 =
      Except.ok resp) :
    resp.meal_plan = none := by
  unfold correctWorkoutPhase at h
  rw [if_pos (show targetsWorkout "workout" = true from rfl)] at h
  split at h
  · exact absurd h (by simp)
  · split at h
    · exact absurd h (by simp)
    · rw [correctMealPhase_workout] at h
      exact (Except.ok.inj h) ▸ rfl

/-- A successful `target=meal` phase answers `workout_plan = None`. -/
theorem mealPhase_ok_workout_none (store : List PlanRow) (plan : PlanRow)
    (uid instruction : String) (stub : StageRole → Nat → Except CapErr String)
    (now : Nat) (cw cm : Json) (resp : CorrectionResponse)
    (h : (correctWorkoutPhase store plan uid instruction "meal" stub now cw cm).1 =
      Except.ok resp) :
    resp.workout_plan = none := by
  have h' : (correctMealPhase store plan uid instruction "meal" stub now cw cm
      [] 0).1 = Except.ok resp := h
  unfold correctMealPhase at h'
  rw [if_pos (show targetsMeal "meal" = true from rfl)] at h'
  split at h'
  · exact absurd h' (by simp)
  · split at h'
    · exact absurd h' (by simp)
    · rw [finishCorrection_meal] at h'
      exact (Except.ok.inj h') ▸ rfl

/-- C3 as amended. The correction endpoint returns the corrected targeted
artifacts and `None` for every untargeted artifact (the untargeted artifact
stays unchanged in the store, per the partial-update isolation theorem, but
is not echoed in the response). -/
theorem correction_response_untargeted_none :
    (∀ (store : List PlanRow) (uid instruction : String)
       (stub : StageRole → Nat → Except CapErr String) (now : Nat)
       (resp : CorrectionResponse),
      (correct_plan_run store uid instruction "workout" stub now).1 =
        Except.ok resp →
      resp.meal_plan = none) ∧
    (∀ (store : List PlanRow) (uid instruction : String)
       (stub : StageRole → Nat → Except CapErr String) (now : Nat)
       (resp : CorrectionResponse),
      (correct_plan_run store uid instruction "meal" stub now).1 =
        Except.ok resp →
      resp.workout_plan = none) := by
  constructor
  · intro store uid instruction stub now resp h
    obtain ⟨plan, cw, cm, h2⟩ :=
      correct_plan_run_ok_shape store uid instruction "workout" stub now resp h
    exact workoutPhase_ok_meal_none store plan uid instruction stub now cw cm resp h2
  · intro store uid instruction stub now resp h
    obtain ⟨plan, cw, cm, h2⟩ :=
      correct_plan_run_ok_shape store uid instruction "meal" stub now resp h
    exact mealPhase_ok_workout_none store plan uid instruction stub now cw cm resp h2

/-- Witness for `correction_response_untargeted_none` on the concrete store
and stub. -/
theorem correction_response_untargeted_none_witness :
    ({ id := "p1"
       user_id := "u1"
       workout_plan := some (Json.obj [("summary", Json.str "new")])
       meal_plan := none
       correction_applied := "more cardio"
       updated_at := 9 } : CorrectionResponse).meal_plan = none ∧
    ({ id := "p1"
       user_id := "u1"
       workout_plan := none
       meal_plan := some (Json.obj [("summary", Json.str "new")])
       correction_applied := "make it vegetarian"
       updated_at := 9 } : CorrectionResponse).workout_plan = none :=
  ⟨correction_response_untargeted_none.1 [storedRow] "u1" "more cardio"
      corrStub 9 _ rfl,
    correction_response_untargeted_none.2 [storedRow] "u1" "make it vegetarian"
      corrStub 9 _ rfl⟩

/-- Temporal order on invocation events: strictly increasing timestamps and
never a jump back to an earlier pipeline stage. -/
def eventOrdered (a b : InvokeEvent) : Prop :=
  a.time < b.time ∧ stageIdx a.stage ≤ stageIdx b.stage

/-- The clock strictly advances across one stage's retry loop. -/
theorem retryStage_end_gt (f : Nat → Except CapErr String) (r : StageRole)
    (b : Nat) : ∀ i t, t < (retryStage f r b i t).2.2 := by
  induction b with
  | zero =>
    intro i t
    rw [retryStage]
    cases h : f i with
    | ok a => exact Nat.lt_succ_self t
    | error e => exact Nat.lt_succ_self t
  | succ b' ih =>
    intro i t
    rw [retryStage]
    cases h : f i with
    | ok a => exact Nat.lt_succ_self t
    | error e => exact Nat.lt_trans (Nat.lt_succ_self t) (ih (i + 1) (t + 1))

/-- Every event of one stage's retry loop carries that stage and a
timestamp within the loop's clock interval. -/
theorem retryStage_events_bound (f : Nat → Except CapErr String) (r : StageRole)
    (b : Nat) : ∀ i t, ∀ ev ∈ (retryStage f r b i t).2.1,
      ev.stage = r ∧ t ≤ ev.time ∧ ev.time < (retryStage f r b i t).2.2 := by
  induction b with
  | zero =>
    intro i t ev hev
    rw [retryStage] at hev ⊢
    cases h : f i with
    | ok a =>
      rw [h] at hev
      simp at hev
      subst hev
      exact ⟨rfl, Nat.le_refl t, Nat.lt_succ_self t⟩
    | error e =>
      rw [h] at hev
      simp at hev
      subst hev
      exact ⟨rfl, Nat.le_refl t, Nat.lt_succ_self t⟩
  | succ b' ih =>
    intro i t ev hev
    rw [retryStage] at hev ⊢
    cases h : f i with
    | ok a =>
      rw [h] at hev
      simp at hev
      subst hev
      exact ⟨rfl, Nat.le_refl t, Nat.lt_succ_self t⟩
    | error e =>
      rw [h] at hev
      simp at hev
      rcases hev with rfl | hev
      · exact ⟨rfl, Nat.le_refl t,
          Nat.lt_trans (Nat.lt_succ_self t) (retryStage_end_gt f r b' (i + 1) (t + 1))⟩
      · obtain ⟨hs, hle, hlt⟩ := ih (i + 1) (t + 1) ev hev
        exact ⟨hs, Nat.le_trans (Nat.le_succ t) hle, hlt⟩

/-- One stage's retry events are internally ordered. -/
theorem retryStage_pairwise (f : Nat → Except CapErr String) (r : StageRole)
    (b : Nat) : ∀ i t, ((retryStage f r b i t).2.1).Pairwise eventOrdered := by
  induction b with
  | zero =>
    intro i t
    rw [retryStage]
    cases h : f i with
    | ok a => simp
    | error e => simp
  | succ b' ih =>
    intro i t
    rw [retryStage]
    cases h : f i with
    | ok a => simp
    | error e =>
      refine List.Pairwise.cons ?_ (ih (i + 1) (t + 1))
      intro ev hev
      obtain ⟨hs, hle, _⟩ := retryStage_events_bound f r b' (i + 1) (t + 1) ev hev
      exact ⟨Nat.lt_of_lt_of_le (Nat.lt_succ_self t) hle, by simp [hs]⟩

/-- C6. Stage ordering of one `generate_plan` run: for every capability
stub — succeeding, failing transiently or fatally at any stage — the
invocation trace is strictly increasing in time and never revisits an
earlier stage: every reasoning invocation precedes every workout invocation,
which precedes every meal invocation, even under retries. -/
theorem pipeline_stage_ordering :
    ∀ stub : StageRole → Nat → Except CapErr String,
      ((generate_plan_run stub).2).Pairwise eventOrdered := by
  intro stub
  have hb1 : ∀ ev ∈ (reasonRun stub).2.1, ev.stage = StageRole.reason ∧
      0 ≤ ev.time ∧ ev.time < (reasonRun stub).2.2 :=
    retryStage_events_bound (stub StageRole.reason) StageRole.reason 2 1 0
  have hb2 : ∀ ev ∈ (workoutRun stub).2.1, ev.stage = StageRole.workout ∧
      (reasonRun stub).2.2 ≤ ev.time ∧ ev.time < (workoutRun stub).2.2 :=
    retryStage_events_bound (stub StageRole.workout) StageRole.workout 2 1 _
  have hb3 : ∀ ev ∈ (mealRun stub).2.1, ev.stage = StageRole.meal ∧
      (workoutRun stub).2.2 ≤ ev.time ∧ ev.time < (mealRun stub).2.2 :=
    retryStage_events_bound (stub StageRole.meal) StageRole.meal 2 1 _
  have hp1 : ((reasonRun stub).2.1).Pairwise eventOrdered :=
    retryStage_pairwise (stub StageRole.reason) StageRole.reason 2 1 0
  have hp2 : ((workoutRun stub).2.1).Pairwise eventOrdered :=
    retryStage_pairwise (stub StageRole.workout) StageRole.workout 2 1 _
  have hp3 : ((mealRun stub).2.1).Pairwise eventOrdered :=
    retryStage_pairwise (stub StageRole.meal) StageRole.meal 2 1 _
  have hgt2 : (reasonRun stub).2.2 < (workoutRun stub).2.2 :=
    retryStage_end_gt (stub StageRole.workout) StageRole.workout 2 1 _
  have hc12 : ∀ a ∈ (reasonRun stub).2.1, ∀ b ∈ (workoutRun stub).2.1,
      eventOrdered a b := by
    intro a ha b hb
    obtain ⟨hs1, _, hlt1⟩ := hb1 a ha
    obtain ⟨hs2, hle2, _⟩ := hb2 b hb
    exact ⟨Nat.lt_of_lt_of_le hlt1 hle2, by simp [hs1, hs2, stageIdx]⟩
  have hc13 : ∀ a ∈ (reasonRun stub).2.1, ∀ b ∈ (mealRun stub).2.1,
      eventOrdered a b := by
    intro a ha b hb
    obtain ⟨hs1, _, hlt1⟩ := hb1 a ha
    obtain ⟨hs3, hle3, _⟩ := hb3 b hb
    exact ⟨Nat.lt_of_lt_of_le (Nat.lt_trans hlt1 hgt2) hle3,
      by simp [hs1, hs3, stageIdx]⟩
  have hc23 : ∀ a ∈ (workoutRun stub).2.1, ∀ b ∈ (mealRun stub).2.1,
      eventOrdered a b := by
    intro a ha b hb
    obtain ⟨hs2, _, hlt2⟩ := hb2 a ha
    obtain ⟨hs3, hle3, _⟩ := hb3 b hb
    exact ⟨Nat.lt_of_lt_of_le hlt2 hle3, by simp [hs2, hs3, stageIdx]⟩
  have hp12 : ((reasonRun stub).2.1 ++ (workoutRun stub).2.1).Pairwise
      eventOrdered :=
    List.pairwise_append.mpr ⟨hp1, hp2, hc12⟩
  have hp123 : ((reasonRun stub).2.1 ++ (workoutRun stub).2.1 ++
      (mealRun stub).2.1).Pairwise eventOrdered := by
    refine List.pairwise_append.mpr ⟨hp12, hp3, ?_⟩
    intro a ha b hb
    rcases List.mem_append.mp ha with h1 | h2
    · exact hc13 a h1 b hb
    · exact hc23 a h2 b hb
  unfold generate_plan_run
  split
  · exact hp1
  · split
    · exact hp12
    · split
      · exact hp12
      · split
        · exact hp123
        · split
          · exact hp123
          · exact hp123

end FitAi
